import Mathlib

/-!
Verification of the bot connection subsystem of `backend/minecraft_manager.py`
(`MinecraftBot` and `MinecraftManager`).

Shallow embedding conventions:
  * Thread interleavings are modelled by explicit observation traces: the
    polling loop of `MinecraftBot.connect` reads the worker thread's
    `is_connected` / `is_running` flags once per second, so the embedding takes
    the list of those per-second observations as input.
  * Side effects (database writes, packet writes, spawned threads, coroutines
    scheduled onto the main event loop) are reified as an `Effect` list.
  * Python `dict` state (`MinecraftManager.active_bots`) is an association
    list; the dict's key uniqueness is the `Nodup` hypothesis on its keys.
  * `time.sleep` durations are tracked in seconds, attempts themselves being
    idealised as instantaneous.
-/

namespace AfkConsole

/-- Snapshot of the `server_settings` flags read by `MinecraftBot`. -/
structure Settings where
  antiAfkEnabled : Bool
  loginMessageEnabled : Bool
  autoConnectEnabled : Bool
  worldChangeMessageEnabled : Bool
deriving DecidableEq

/-- One per-second observation of the worker thread's flags, as read by the
polling loop in `MinecraftBot.connect` (lines 80-100). -/
structure ConnObs where
  isConnected : Bool
  isRunning : Bool
deriving DecidableEq

/-- The daemon threads `MinecraftBot` spawns. -/
inductive ThreadKind where
  | antiAfk
  | loginMessages
  | worldChangeMessages
  | autoReconnect
deriving DecidableEq

/-- Database operations performed through `db_manager` (the StateStore). -/
inductive DbWrite where
  | setOnline (accountId : String) (online : Bool)
  | saveChat (accountId : String) (text : String) (outgoing : Bool)
deriving DecidableEq

/-- Outbound protocol packets written via `connection.write_packet`. -/
inductive Packet where
  | keepAlive (kid : Int)
  | playerPosition
  | chat (text : String)
deriving DecidableEq

/-- Side effects a packet callback can perform on the worker thread.
`scheduleAsync` is `_schedule_async` (hand-off of a coroutine to the main
event loop); `directDbWrite` would be a StateStore write performed on the
worker thread itself (never emitted by the code, which is claim C8). -/
inductive Effect where
  | scheduleAsync (w : DbWrite)
  | directDbWrite (w : DbWrite)
  | packetWrite (p : Packet)
  | spawnThread (k : ThreadKind)
deriving DecidableEq

def Effect.isDirectDbWrite : Effect → Bool
  | .directDbWrite _ => true
  | _ => false

def Effect.isScheduleAsync : Effect → Bool
  | .scheduleAsync _ => true
  | _ => false

def Effect.isPacketWrite : Effect → Bool
  | .packetWrite _ => true
  | _ => false

def Effect.isSpawnThread : Effect → Bool
  | .spawnThread _ => true
  | _ => false

/-- The mutable `MinecraftBot` fields read by the packet callbacks. -/
structure BotState where
  accountId : String
  isConnected : Bool
  isRunning : Bool
  settings : Settings
deriving DecidableEq

/-- The clientbound packet events `_real_connection_thread` registers
listeners for (lines 122-142). -/
inductive PacketEvent where
  | joinGame
  | chatMessage (text : String)
  | disconnected (reason : String)
  | keepAlive (kid : Int)
  | worldChange
deriving DecidableEq

/-- Embedding of the five packet callbacks of `MinecraftBot`
(`_handle_join_game`, `_handle_chat_message`, `_handle_disconnect`,
`_handle_keep_alive`, `_handle_world_change`, lines 171-227): the updated
bot state and the effects performed on the worker thread. -/
def handlePacket (b : BotState) : PacketEvent → BotState × List Effect
  | .joinGame =>
      ({ b with isConnected := true },
       [.scheduleAsync (.setOnline b.accountId true)])
  | .chatMessage text =>
      (b, [.scheduleAsync (.saveChat b.accountId text false)])
  | .disconnected _ =>
      ({ b with isConnected := false },
       .scheduleAsync (.setOnline b.accountId false) ::
         (if b.settings.autoConnectEnabled && b.isRunning then
            [.spawnThread .autoReconnect]
          else []))
  | .keepAlive kid =>
      (b, [.packetWrite (.keepAlive kid)])
  | .worldChange =>
      (b, if b.settings.worldChangeMessageEnabled then
            [.spawnThread .worldChangeMessages]
          else [])

/-- Result of one `MinecraftBot.connect` call: the returned boolean, the
`_update_connection_status` writes made by `connect` itself, the seconds the
polling loop consumed, and the daemon threads started on success. -/
structure ConnOutcome where
  result : Bool
  statusWrites : List Bool
  elapsed : Nat
  threadsStarted : List ThreadKind
deriving DecidableEq

/-- The polling loop of `MinecraftBot.connect` (lines 80-106): each iteration
sleeps one second then reads the worker flags; on `is_connected` it persists
online and starts the enabled feature threads; on `not is_running` it breaks;
falling out of the loop persists offline. -/
def connectGo (s : Settings) : List ConnObs → Nat → ConnOutcome
  | [], t => ⟨false, [false], t, []⟩
  | o :: rest, t =>
    if o.isConnected then
      ⟨true, [true], t + 1,
        (if s.antiAfkEnabled then [ThreadKind.antiAfk] else []) ++
          (if s.loginMessageEnabled then [ThreadKind.loginMessages] else [])⟩
    else if o.isRunning then connectGo s rest (t + 1)
    else ⟨false, [false], t + 1, []⟩

/-- `MinecraftBot.connect` with its hard 30-iteration ceiling
(`connection_timeout = 30`, line 79): only the first 30 per-second
observations of the worker thread can be consumed. -/
def connectRun (s : Settings) (trace : List ConnObs) : ConnOutcome :=
  connectGo s (trace.take 30) 0

/-- The retry loop of `MinecraftBot._auto_reconnect` (lines 293-320), run when
an unexpected disconnect occurs at time 0.  `outcome i` is the result of the
i-th `connect()` call; a failed `connect()` sets `is_running = False`
(lines 104/110/116) while a successful one leaves it `True` (line 55), so the
running flag after an attempt equals the attempt's outcome.  Each loop
iteration sleeps 300 s and then returns if `is_running` is false; after the
three loop iterations it sleeps 3600 s and makes one final attempt if still
running.  Returns the times (seconds after the disconnect) at which `connect`
is actually called, attempts idealised as instantaneous. -/
def autoReconnectIter (outcome : Nat → Bool) : Nat → Nat → Bool → Nat → List Nat
  | 0, t, running, _ =>
      if running then [t + 3600] else []
  | n + 1, t, running, i =>
      let t1 := t + 300
      if running then
        if outcome i then [t1]
        else t1 :: autoReconnectIter outcome n t1 false (i + 1)
      else []

/-- `MinecraftBot._auto_reconnect` started right after the unexpected
disconnect, with `is_running` still true (the server-initiated disconnect
does not clear it). -/
def autoReconnectTimes (outcome : Nat → Bool) : List Nat :=
  autoReconnectIter outcome 3 0 true 0

/-- One entry of the `login_messages` configuration list: the text and the
optional per-entry delay (`msg_config.get('delay', 2)` defaults to 2). -/
structure MsgConfig where
  message : String
  delay : Option Nat
deriving DecidableEq

/-- The effective per-entry delay, with the `.get('delay', 2)` default. -/
def msgDelay (c : MsgConfig) : Nat := c.delay.getD 2

/-- Observable steps of a message-script thread: sleeping and sending chat. -/
inductive ScriptStep where
  | wait (secs : Nat)
  | chat (msg : String)
deriving DecidableEq

/-- The body of the `for i, msg_config in enumerate(login_messages)` loop in
`_send_login_messages` (lines 263-269): for `i > 0` sleep the entry's delay,
then send the entry's message if it is non-empty (the session is taken to
remain connected throughout, which is the `Active` premise of the claim). -/
def loginBody : Bool → List MsgConfig → List ScriptStep
  | _, [] => []
  | isFirst, c :: rest =>
    (if isFirst then [] else [ScriptStep.wait (msgDelay c)]) ++
      (if c.message ≠ "" then [ScriptStep.chat c.message] else []) ++
      loginBody false rest

/-- `MinecraftBot._send_login_messages` (lines 256-272): an initial
`time.sleep(3)` settle delay, then the message loop. -/
def sendLoginMessagesSteps (msgs : List MsgConfig) : List ScriptStep :=
  ScriptStep.wait 3 :: loginBody true msgs

/-- Amended-claim shape for the tail of the script: each entry after the
first waits its own configured delay and then sends. -/
def amendedTail : List MsgConfig → List ScriptStep
  | [] => []
  | c :: rest => ScriptStep.wait (msgDelay c) :: ScriptStep.chat c.message :: amendedTail rest

/-- Amended-claim shape of the whole script: a fixed 3-second settle delay
(ignoring the first entry's configured delay), the first send, then the tail. -/
def amendedLoginSteps : List MsgConfig → List ScriptStep
  | [] => [ScriptStep.wait 3]
  | c :: rest => ScriptStep.wait 3 :: ScriptStep.chat c.message :: amendedTail rest

/-- The `MinecraftBot` fields read by `send_chat_message`:
`self.is_connected`, `self.is_running`, and `self.connection.connected`
(a missing `connection` object is modelled as `connConnected = false`). -/
structure MBot where
  isConnected : Bool
  isRunning : Bool
  connConnected : Bool
deriving DecidableEq

/-- `MinecraftBot.send_chat_message` (lines 354-377): the packet is written
and `True` returned exactly when `is_connected and connection and
connection.connected` holds. -/
def send_chat_message (b : MBot) : Bool := b.isConnected && b.connConnected

/-- `MinecraftManager.active_bots`, a Python dict modelled as an association
list; dict key uniqueness is the `Nodup` hypothesis on `mapKeys`. -/
abbrev BotMap := List (String × MBot)

def mapKeys (m : BotMap) : List String := m.map Prod.fst

/-- Dict lookup `active_bots[account_id]` (first matching key). -/
def findBot (m : BotMap) (k : String) : Option MBot :=
  (m.find? fun p => p.1 == k).map Prod.snd

/-- Python `account_id in self.active_bots`. -/
def containsKey (m : BotMap) (k : String) : Bool := (findBot m k).isSome

/-- The accumulation loop of `MinecraftManager.send_message_from_accounts`
(lines 481-487): walk the requested ids, and for each id present in
`active_bots` whose `send_chat_message` returns `True`, increment the
counter. -/
def sendLoop (m : BotMap) : List String → Nat → Nat
  | [], c => c
  | k :: rest, c =>
    match findBot m k with
    | some b => if send_chat_message b then sendLoop m rest (c + 1) else sendLoop m rest c
    | none => sendLoop m rest c

/-- `MinecraftManager.send_message_from_accounts` (lines 479-489): returns
`success_count > 0`, a boolean. -/
def send_message_from_accounts (m : BotMap) (ids : List String) : Bool :=
  decide (0 < sendLoop m ids 0)

/-- Spec-side description of one delivery: the id is in the map and the
bot's write path reports success. -/
def deliveredTo (m : BotMap) (k : String) : Bool :=
  match findBot m k with
  | some b => send_chat_message b
  | none => false

/-- Spec-side `successCount`: the number of requested ids whose delivery
succeeded.  Defined from the spec's words for comparison with the value the
code actually returns. -/
def spec_successCount (m : BotMap) (ids : List String) : Nat :=
  (ids.filter fun k => deliveredTo m k).length

/-- Python coerces `True`/`False` to the numbers 1/0, so a claim that the
returned boolean is a count is read through this coercion. -/
def pyNat (b : Bool) : Nat := if b then 1 else 0

/-- Scenario map: `acct1` is connected and writable, `acct2` is not. -/
def oneActiveMap : BotMap :=
  [("acct1", ⟨true, true, true⟩), ("acct2", ⟨false, true, false⟩)]

/-- Counterexample map: both accounts are connected and writable. -/
def bothActiveMap : BotMap :=
  [("acct1", ⟨true, true, true⟩), ("acct2", ⟨true, true, true⟩)]

/-- One 60-second window of `_anti_afk_loop` (lines 229-254).  The loop
condition `anti_afk_enabled and is_running` is read at the window start; the
send condition `is_connected and connection and connection.connected` is read
after the `time.sleep(60)`, i.e. at the window end. -/
structure AfkWindow where
  enabledAtStart : Bool
  runningAtStart : Bool
  connectedAtEnd : Bool
deriving DecidableEq

/-- `MinecraftBot._anti_afk_loop` over a trace of 60-second windows: the
emitted movement packets, one boolean per window the loop was still alive for
(`true` = one position packet written in that window). -/
def antiAfkEmits : List AfkWindow → List Bool
  | [] => []
  | w :: rest =>
    if w.enabledAtStart && w.runningAtStart then
      w.connectedAtEnd :: antiAfkEmits rest
    else []

/-- Python `del active_bots[account_id]` (under dict key uniqueness the
filter removes exactly that entry). -/
def eraseKey (m : BotMap) (k : String) : BotMap :=
  m.filter fun p => p.1 != k

/-- `MinecraftBot.disconnect` (lines 412-436) as it acts on the bot flags:
stops the loops, closes the protocol connection, clears `is_connected`. -/
def disconnectBot (b : MBot) : MBot :=
  { b with isConnected := false, isRunning := false, connConnected := false }

/-- A freshly connected bot, as observed right after `connect` returns
`True`: `is_connected` set by the worker thread, connection open. -/
def activeBot : MBot := ⟨true, true, true⟩

/-- A bot whose `connect` just failed: `is_connected` false (thread's
`finally`), `is_running` cleared by the failure path of `connect`. -/
def failedBot : MBot := ⟨false, false, false⟩

/-- `MinecraftManager.disconnect_account` (lines 470-477): await the bot's
disconnect and delete the map entry if present. -/
def disconnect_account (m : BotMap) (k : String) : Bool × BotMap :=
  if containsKey m k then (true, eraseKey m k) else (false, m)

/-- Result of one `MinecraftManager.connect_account` call (lines 450-468):
the returned boolean, the final `active_bots` map, the successive contents of
the map at each sequential point inside the call (entry; after the eviction
of any prior session; after the conditional registration), and the bots whose
`disconnect` was awaited, in order. -/
structure ConnectAccountOut where
  result : Bool
  finalMap : BotMap
  snapshots : List BotMap
  stopped : List MBot
deriving DecidableEq

/-- `MinecraftManager.connect_account`: if a session exists for the account
it is fully stopped (its `disconnect` awaited) and removed first; then a new
bot is created and connected; only on success is it registered, otherwise its
`disconnect` is awaited and the map is left without an entry for the account.
The connect attempt itself is `connectRun` over the worker observations. -/
def connect_account (m : BotMap) (k : String) (s : Settings)
    (trace : List ConnObs) : ConnectAccountOut :=
  let oldStopped : List MBot :=
    match findBot m k with
    | some b => [disconnectBot b]
    | none => []
  let m1 := if containsKey m k then eraseKey m k else m
  if (connectRun s trace).result then
    { result := true
      finalMap := m1 ++ [(k, activeBot)]
      snapshots := [m, m1, m1 ++ [(k, activeBot)]]
      stopped := oldStopped }
  else
    { result := false
      finalMap := m1
      snapshots := [m, m1, m1]
      stopped := oldStopped ++ [disconnectBot failedBot] }

/-- `MinecraftManager.get_connected_accounts` (lines 498-500). -/
def get_connected_accounts (m : BotMap) : List String :=
  (m.filter fun p => p.2.isConnected).map Prod.fst

/-- `MinecraftManager.is_account_connected` (lines 502-504). -/
def is_account_connected (m : BotMap) (k : String) : Bool :=
  containsKey m k &&
    (match findBot m k with
     | some b => b.isConnected
     | none => false)

end AfkConsole

namespace AfkConsole

/-- C6: on an incoming keepalive packet, `_handle_keep_alive` answers on the
same thread with a single `write_packet` of an echo packet carrying the
incoming keep-alive id: no `_schedule_async` hand-off to the bridge and no
StateStore write occurs, and the bot state is untouched. -/
theorem keep_alive_echo_same_thread (b : BotState) (kid : Int) :
    (handlePacket b (.keepAlive kid)).2 = [Effect.packetWrite (Packet.keepAlive kid)] ∧
    (handlePacket b (.keepAlive kid)).1 = b ∧
    ((handlePacket b (.keepAlive kid)).2.all fun e =>
      !(e.isScheduleAsync) && !(e.isDirectDbWrite)) = true := by
  refine ⟨rfl, rfl, rfl⟩

/-- C8: no packet callback running on the worker thread ever writes to the
StateStore directly: every effect a callback performs is either a coroutine
scheduled onto the main event loop via `_schedule_async`, a protocol packet
write, or a spawned daemon thread — never a direct database write. -/
theorem packet_callbacks_no_direct_store_write (b : BotState) (e : PacketEvent) :
    ((handlePacket b e).2.all fun eff => !(eff.isDirectDbWrite)) = true ∧
    ((handlePacket b e).2.all fun eff =>
      eff.isScheduleAsync || eff.isPacketWrite || eff.isSpawnThread) = true := by
  cases e <;>
    simp [handlePacket, Effect.isDirectDbWrite, Effect.isScheduleAsync,
      Effect.isPacketWrite, Effect.isSpawnThread]
  exact ⟨fun x _ _ hx => by subst hx; rfl,
         fun x _ _ hx => by subst hx; exact Or.inr rfl⟩

/-- C4 (code bug): when every reconnect attempt fails, `_auto_reconnect` makes
exactly one attempt, at +300 s (5 minutes) — not the documented four attempts
at +5 min, +10 min, +15 min and +1 h 15 min.  The first failed `connect()`
sets `is_running = False`, which the next loop iteration's guard reads as a
caller-initiated stop and returns. -/
theorem auto_reconnect_single_attempt_bug :
    autoReconnectTimes (fun _ => false) = [300] ∧
    autoReconnectTimes (fun _ => false) ≠ [300, 600, 900, 4500] := by
  constructor
  · rfl
  · intro h
    simp [autoReconnectTimes, autoReconnectIter] at h

/-- Helper: if no observation of the worker thread ever shows
`is_connected = True`, the polling loop of `connect` returns failure, writes
exactly one offline status update, and consumes at most one second per
observation. -/
theorem connect_go_no_join (s : Settings) (l : List ConnObs) :
    ∀ t : Nat, (∀ o ∈ l, o.isConnected = false) →
      (connectGo s l t).result = false ∧
      (connectGo s l t).statusWrites = [false] ∧
      (connectGo s l t).elapsed ≤ t + l.length := by
  induction l with
  | nil => intro t _; simp [connectGo]
  | cons o rest ih =>
    intro t h
    have ho : o.isConnected = false := h o (by simp)
    have hrest : ∀ x ∈ rest, x.isConnected = false := fun x hx => h x (by simp [hx])
    rcases ih (t + 1) hrest with ⟨h1, h2, h3⟩
    by_cases hr : o.isRunning = true
    · simp [connectGo, ho, hr, h1, h2]
      omega
    · simp [connectGo, ho, hr]

/-- C1: a `connect` attempt whose target never reaches `Active` (the worker
thread never sets `is_connected`) returns `False` to the caller, persists the
online status as `false` and never as `true`, and finishes within the
30-second polling ceiling. -/
theorem connect_timeout_reports_failure (s : Settings) (trace : List ConnObs)
    (h : ∀ o ∈ trace, o.isConnected = false) :
    (connectRun s trace).result = false ∧
    (connectRun s trace).statusWrites = [false] ∧
    (connectRun s trace).elapsed ≤ 30 := by
  have htake : ∀ o ∈ trace.take 30, o.isConnected = false :=
    fun o ho => h o (List.take_subset 30 trace ho)
  rcases connect_go_no_join s (trace.take 30) 0 htake with ⟨h1, h2, h3⟩
  refine ⟨h1, h2, ?_⟩
  have hlen : (trace.take 30).length ≤ 30 := by
    simp [List.length_take]
  have helapsed : (connectRun s trace).elapsed = (connectGo s (trace.take 30) 0).elapsed := rfl
  omega

/-- Witness for C1 at a concrete never-connected trace. -/
theorem connect_timeout_reports_failure_witness :
    (connectRun ⟨false, false, false, false⟩ [⟨false, false⟩]).result = false ∧
    (connectRun ⟨false, false, false, false⟩ [⟨false, false⟩]).statusWrites = [false] ∧
    (connectRun ⟨false, false, false, false⟩ [⟨false, false⟩]).elapsed ≤ 30 :=
  connect_timeout_reports_failure ⟨false, false, false, false⟩ [⟨false, false⟩] (by decide)

/-- Helper: the accumulation loop returns its accumulator plus the number of
ids whose delivery succeeded. -/
theorem sendLoop_eq_count (m : BotMap) :
    ∀ (ids : List String) (c : Nat), sendLoop m ids c = c + spec_successCount m ids := by
  intro ids
  induction ids with
  | nil => intro c; simp [sendLoop, spec_successCount]
  | cons k rest ih =>
    intro c
    cases hfb : findBot m k with
    | none =>
      have hd : deliveredTo m k = false := by simp [deliveredTo, hfb]
      simp [sendLoop, spec_successCount, hfb, hd, ih c]
    | some b =>
      have hd : deliveredTo m k = send_chat_message b := by simp [deliveredTo, hfb]
      by_cases hs : send_chat_message b = true
      · simp [sendLoop, spec_successCount, hfb, hd, hs, ih (c + 1)]
        have : spec_successCount m rest =
            (rest.filter fun x => deliveredTo m x).length := rfl
        omega
      · simp [sendLoop, spec_successCount, hfb, hd, hs, ih c]

/-- C3 counterexample: with two connected accounts both delivering,
`send_message_from_accounts` returns `True` — as a Python number 1 — while
the number of accounts that delivered is 2, so the function does not return
the success count. -/
theorem send_from_many_count_counterexample :
    pyNat (send_message_from_accounts bothActiveMap ["acct1", "acct2"]) ≠
      spec_successCount bothActiveMap ["acct1", "acct2"] := by
  decide

/-- C3 (amended): `send_message_from_accounts` returns a boolean that is
`True` exactly when at least one requested account delivered (the success
count is positive), and in the two-account scenario with exactly one
connected account the success count is 1 and the call returns `True`. -/
theorem send_from_many_reports_any_success :
    (∀ (m : BotMap) (ids : List String),
        send_message_from_accounts m ids = decide (0 < spec_successCount m ids)) ∧
    spec_successCount oneActiveMap ["acct1", "acct2"] = 1 ∧
    send_message_from_accounts oneActiveMap ["acct1", "acct2"] = true := by
  refine ⟨?_, by decide, by decide⟩
  intro m ids
  simp [send_message_from_accounts, sendLoop_eq_count]

/-- Helper: past the first entry, the login loop waits each entry's own
configured delay and then sends it, provided every message is non-empty. -/
theorem loginBody_eq_amendedTail :
    ∀ l : List MsgConfig, (∀ c ∈ l, c.message ≠ "") →
      loginBody false l = amendedTail l := by
  intro l
  induction l with
  | nil => intro _; rfl
  | cons c rest ih =>
    intro h
    have hc : c.message ≠ "" := h c (by simp)
    have hrest : ∀ x ∈ rest, x.message ≠ "" := fun x hx => h x (by simp [hx])
    simp [loginBody, amendedTail, hc, ih hrest]

/-- C7 (amended): the login-message script thread is started exactly once per
successful `Active` entry (when enabled), and the script waits a fixed
3-second settle delay before the first send — the first entry's configured
delay is ignored — then waits each subsequent entry's configured delay before
sending it, walking the list in order. -/
theorem login_script_once_and_ordered :
    (∀ (s : Settings) (trace : List ConnObs),
        (connectRun s trace).result = true → s.loginMessageEnabled = true →
        (connectRun s trace).threadsStarted.count ThreadKind.loginMessages = 1) ∧
    (∀ msgs : List MsgConfig, (∀ c ∈ msgs, c.message ≠ "") →
        sendLoginMessagesSteps msgs = amendedLoginSteps msgs) := by
  constructor
  · intro s trace hres hflag
    have hthreads : ∀ (l : List ConnObs) (t : Nat), (connectGo s l t).result = true →
        (connectGo s l t).threadsStarted =
          (if s.antiAfkEnabled then [ThreadKind.antiAfk] else []) ++
            (if s.loginMessageEnabled then [ThreadKind.loginMessages] else []) := by
      intro l
      induction l with
      | nil => intro t h; simp [connectGo] at h
      | cons o rest ih =>
        intro t h
        by_cases hc : o.isConnected = true
        · simp [connectGo, hc]
        · by_cases hr : o.isRunning = true
          · simp only [connectGo, hc, hr, if_false, if_true] at h ⊢
            exact ih _ h
          · simp [connectGo, hc, hr] at h
    have := hthreads (trace.take 30) 0 hres
    rw [show (connectRun s trace).threadsStarted =
        (connectGo s (trace.take 30) 0).threadsStarted from rfl, this, hflag]
    by_cases ha : s.antiAfkEnabled = true <;> simp [ha]
  · intro msgs h
    cases msgs with
    | nil => rfl
    | cons c rest =>
      have hc : c.message ≠ "" := h c (by simp)
      have hrest : ∀ x ∈ rest, x.message ≠ "" := fun x hx => h x (by simp [hx])
      simp [sendLoginMessagesSteps, amendedLoginSteps, loginBody, hc,
        loginBody_eq_amendedTail rest hrest]

/-- Witness for C7 at a concrete successful connect and a concrete script. -/
theorem login_script_once_and_ordered_witness :
    (connectRun ⟨false, true, false, false⟩ [⟨true, true⟩]).threadsStarted.count
        ThreadKind.loginMessages = 1 ∧
    sendLoginMessagesSteps [⟨"hi", some 5⟩, ⟨"there", none⟩] =
      amendedLoginSteps [⟨"hi", some 5⟩, ⟨"there", none⟩] :=
  ⟨login_script_once_and_ordered.1 ⟨false, true, false, false⟩ [⟨true, true⟩]
      (by decide) rfl,
   login_script_once_and_ordered.2 [⟨"hi", some 5⟩, ⟨"there", none⟩] (by decide)⟩

/-- C7 counterexample: with a single configured entry whose delay is 100, the
script waits the fixed 3-second settle delay, not the entry's configured
delay, before the first send. -/
theorem login_settle_delay_counterexample :
    sendLoginMessagesSteps [⟨"hi", some 100⟩] ≠
      [ScriptStep.wait 100, ScriptStep.chat "hi"] := by
  decide

/-- Helper: while every window is fully `Active`, each window emits exactly
one movement packet. -/
theorem antiAfkEmits_all_active :
    ∀ ws : List AfkWindow,
      (∀ w ∈ ws, w.enabledAtStart = true ∧ w.runningAtStart = true ∧
        w.connectedAtEnd = true) →
      antiAfkEmits ws = List.replicate ws.length true := by
  intro ws
  induction ws with
  | nil => intro _; rfl
  | cons w rest ih =>
    intro h
    rcases h w (by simp) with ⟨h1, h2, h3⟩
    have hrest : ∀ x ∈ rest, x.enabledAtStart = true ∧ x.runningAtStart = true ∧
        x.connectedAtEnd = true := fun x hx => h x (by simp [hx])
    simp [antiAfkEmits, h1, h2, h3, ih hrest, List.replicate_succ]

/-- Helper: once the session has left `Active` (no window end sees it
connected again), no window emits a packet. -/
theorem antiAfkEmits_disconnected_false :
    ∀ ws : List AfkWindow, (∀ w ∈ ws, w.connectedAtEnd = false) →
      ∀ b ∈ antiAfkEmits ws, b = false := by
  intro ws
  induction ws with
  | nil => intro _ b hb; simp [antiAfkEmits] at hb
  | cons w rest ih =>
    intro h b hb
    have hw : w.connectedAtEnd = false := h w (by simp)
    have hrest : ∀ x ∈ rest, x.connectedAtEnd = false :=
      fun x hx => h x (by simp [hx])
    by_cases hrun : w.enabledAtStart && w.runningAtStart
    · simp [antiAfkEmits, hrun, hw] at hb
      rcases hb with hb | hb
      · exact hb
      · exact ih hrest b hb
    · simp [antiAfkEmits, hrun] at hb

/-- Helper: an all-`Active` prefix contributes exactly one emission per
window that precedes whatever the rest of the trace does. -/
theorem antiAfkEmits_active_front :
    ∀ pre rest : List AfkWindow,
      (∀ w ∈ pre, w.enabledAtStart = true ∧ w.runningAtStart = true ∧
        w.connectedAtEnd = true) →
      antiAfkEmits (pre ++ rest) =
        List.replicate pre.length true ++ antiAfkEmits rest := by
  intro pre rest
  induction pre with
  | nil => intro _; rfl
  | cons w tl ih =>
    intro h
    rcases h w (by simp) with ⟨h1, h2, h3⟩
    have htl : ∀ x ∈ tl, x.enabledAtStart = true ∧ x.runningAtStart = true ∧
        x.connectedAtEnd = true := fun x hx => h x (by simp [hx])
    simp [antiAfkEmits, h1, h2, h3, ih htl, List.replicate_succ]

/-- C5: the anti-afk loop emits exactly one movement packet per 60-second
window while the session is `Active`, and zero packets once the session
leaves `Active`: after the windows of an all-`Active` prefix, if no later
window end observes the session connected (in particular after a `Stop()`
issued mid-window, which also clears the loop flags), no packet is emitted
in any later window. -/
theorem anti_afk_one_per_window :
    (∀ ws : List AfkWindow,
        (∀ w ∈ ws, w.enabledAtStart = true ∧ w.runningAtStart = true ∧
          w.connectedAtEnd = true) →
        antiAfkEmits ws = List.replicate ws.length true) ∧
    (∀ pre rest : List AfkWindow,
        (∀ w ∈ pre, w.enabledAtStart = true ∧ w.runningAtStart = true ∧
          w.connectedAtEnd = true) →
        (∀ w ∈ rest, w.connectedAtEnd = false) →
        antiAfkEmits (pre ++ rest) =
          List.replicate pre.length true ++ antiAfkEmits rest ∧
        ∀ b ∈ antiAfkEmits rest, b = false) := by
  refine ⟨antiAfkEmits_all_active, fun pre rest hpre hrest => ?_⟩
  exact ⟨antiAfkEmits_active_front pre rest hpre,
         antiAfkEmits_disconnected_false rest hrest⟩

/-- Witness for C5: two fully active windows emit one packet each; a `Stop()`
mid-window (flags were up at the window start, connection gone at its end,
flags down afterwards) emits nothing from that window on. -/
theorem anti_afk_one_per_window_witness :
    antiAfkEmits [⟨true, true, true⟩, ⟨true, true, true⟩] = List.replicate 2 true ∧
    antiAfkEmits ([⟨true, true, true⟩] ++ [⟨true, true, false⟩, ⟨false, false, false⟩]) =
      List.replicate 1 true ++ antiAfkEmits [⟨true, true, false⟩, ⟨false, false, false⟩] :=
  ⟨anti_afk_one_per_window.1 [⟨true, true, true⟩, ⟨true, true, true⟩] (by decide),
   (anti_afk_one_per_window.2 [⟨true, true, true⟩]
      [⟨true, true, false⟩, ⟨false, false, false⟩] (by decide) (by decide)).1⟩

/-- Helper: a boolean that is not `true` is `false`. -/
theorem bool_eq_false_of_ne_true {b : Bool} (h : ¬ b = true) : b = false := by
  cases b
  · rfl
  · exact absurd rfl h

/-- Helper: dict membership agrees with membership in the key list. -/
theorem containsKey_iff_mem (m : BotMap) (k : String) :
    containsKey m k = true ↔ k ∈ mapKeys m := by
  simp [containsKey, findBot, List.find?_isSome, mapKeys, List.mem_map]

/-- Helper: deleting a key removes it from the key list. -/
theorem not_mem_mapKeys_eraseKey (m : BotMap) (k : String) :
    k ∉ mapKeys (eraseKey m k) := by
  simp [mapKeys, eraseKey, List.mem_map, List.mem_filter]

/-- Helper: deleting a key preserves key uniqueness. -/
theorem mapKeys_eraseKey_nodup (m : BotMap) (k : String)
    (h : (mapKeys m).Nodup) : (mapKeys (eraseKey m k)).Nodup := by
  simp only [mapKeys, eraseKey]
  exact h.sublist ((List.filter_sublist m).map Prod.fst)

/-- Helper: deleting an absent key is a no-op. -/
theorem eraseKey_eq_self_of_not_contains (m : BotMap) (k : String)
    (h : containsKey m k = false) : eraseKey m k = m := by
  have hf : ∀ p ∈ m, p.1 ≠ k := by
    intro p hp hpk
    have hm : containsKey m k = true :=
      (containsKey_iff_mem m k).mpr (List.mem_map.mpr ⟨p, hp, hpk⟩)
    rw [h] at hm
    exact Bool.false_ne_true hm
  simp only [eraseKey]
  apply List.filter_eq_self.mpr
  intro p hp
  simpa using hf p hp

/-- Helper: after the eviction step of `connect_account`, the keys are still
unique and the target account has no entry. -/
theorem evictKeys (m : BotMap) (k : String) (hnd : (mapKeys m).Nodup) :
    (mapKeys (if containsKey m k then eraseKey m k else m)).Nodup ∧
    k ∉ mapKeys (if containsKey m k then eraseKey m k else m) := by
  by_cases hc : containsKey m k = true
  · simp only [hc, if_true]
    exact ⟨mapKeys_eraseKey_nodup m k hnd, not_mem_mapKeys_eraseKey m k⟩
  · have hcf : containsKey m k = false := bool_eq_false_of_ne_true hc
    simp only [hcf, Bool.false_eq_true, if_false]
    refine ⟨hnd, fun hk => ?_⟩
    have hm := (containsKey_iff_mem m k).mpr hk
    rw [hcf] at hm
    exact Bool.false_ne_true hm

/-- Helper: registering a fresh key keeps the keys unique. -/
theorem mapKeys_append_nodup (m : BotMap) (k : String) (b : MBot)
    (hnd : (mapKeys m).Nodup) (hk : k ∉ mapKeys m) :
    (mapKeys (m ++ [(k, b)])).Nodup := by
  have hkeys : mapKeys (m ++ [(k, b)]) = mapKeys m ++ [k] := by
    simp [mapKeys]
  rw [hkeys]
  refine List.Nodup.append hnd (List.nodup_singleton k) ?_
  intro x hx hxk
  simp at hxk
  subst hxk
  exact hk hx

/-- C2: every intermediate state of the `active_bots` map during a
`connect_account` call — on entry, after the eviction of any prior session,
and after the conditional registration — holds at most one entry per
accountId, and every bot whose `disconnect` the call awaited is fully
stopped (its running and connected flags cleared) before the replacement is
registered. -/
theorem connect_account_single_session (m : BotMap) (k : String) (s : Settings)
    (trace : List ConnObs) (hnd : (mapKeys m).Nodup) :
    (∀ snap ∈ (connect_account m k s trace).snapshots, ∀ a : String,
        (mapKeys snap).count a ≤ 1) ∧
    (∀ b ∈ (connect_account m k s trace).stopped,
        b.isRunning = false ∧ b.isConnected = false) := by
  obtain ⟨hm1nd, hm1k⟩ := evictKeys m k hnd
  constructor
  · intro snap hsnap a
    have hnodup : (mapKeys snap).Nodup := by
      by_cases hres : (connectRun s trace).result = true
      · simp only [connect_account, hres, if_true] at hsnap
        simp at hsnap
        rcases hsnap with rfl | rfl | rfl
        · exact hnd
        · exact hm1nd
        · exact mapKeys_append_nodup _ k activeBot hm1nd hm1k
      · have hresf := bool_eq_false_of_ne_true hres
        simp only [connect_account, hresf, Bool.false_eq_true, if_false] at hsnap
        simp at hsnap
        rcases hsnap with rfl | rfl
        · exact hnd
        · exact hm1nd
    exact List.nodup_iff_count_le_one.mp hnodup a
  · intro b hb
    have hstop : ∀ x : MBot, b = disconnectBot x →
        b.isRunning = false ∧ b.isConnected = false := by
      intro x hx
      subst hx
      exact ⟨rfl, rfl⟩
    by_cases hres : (connectRun s trace).result = true
    · simp only [connect_account, hres, if_true] at hb
      cases hfb : findBot m k with
      | none => simp [hfb] at hb
      | some old =>
        simp [hfb] at hb
        exact hstop old hb
    · have hresf := bool_eq_false_of_ne_true hres
      simp only [connect_account, hresf, Bool.false_eq_true, if_false] at hb
      cases hfb : findBot m k with
      | none =>
        simp [hfb] at hb
        exact hstop failedBot hb
      | some old =>
        simp [hfb] at hb
        rcases hb with hb | hb
        · exact hstop old hb
        · exact hstop failedBot hb

/-- Witness for C2 at a concrete map that already holds a session for the
account being reconnected. -/
theorem connect_account_single_session_witness :
    (mapKeys [("a", MBot.mk true true true)]).count "a" ≤ 1 ∧
    (disconnectBot ⟨true, true, true⟩).isRunning = false ∧
    (disconnectBot ⟨true, true, true⟩).isConnected = false := by
  have h := connect_account_single_session [("a", ⟨true, true, true⟩)] "a"
      ⟨false, false, false, false⟩ [] (by decide)
  refine ⟨h.1 [("a", ⟨true, true, true⟩)] (by decide) "a", ?_, ?_⟩
  · exact (h.2 (disconnectBot ⟨true, true, true⟩) (by decide)).1
  · exact (h.2 (disconnectBot ⟨true, true, true⟩) (by decide)).2

/-- C9 counterexample: when the account already has a live session and the
new connect fails, the map is not left unchanged — the prior session's entry
has been evicted — even though the call duly returns `False`. -/
theorem connect_account_map_changed_counterexample :
    (connect_account [("a", MBot.mk true true true)] "a"
        ⟨false, false, false, false⟩ []).result = false ∧
    (connect_account [("a", MBot.mk true true true)] "a"
        ⟨false, false, false, false⟩ []).finalMap ≠
      [("a", MBot.mk true true true)] := by
  decide

/-- C9 (amended): if the bot's connect fails, `connect_account` returns
`False` and leaves `active_bots` equal to the prior map with any pre-existing
entry for the account removed — the failed bot is never registered; and in
general the account has an entry in the final map exactly when its connect
returned `True`. -/
theorem connect_account_failure_not_registered :
    (∀ (m : BotMap) (k : String) (s : Settings) (trace : List ConnObs),
        (connectRun s trace).result = false →
        (connect_account m k s trace).result = false ∧
        (connect_account m k s trace).finalMap = eraseKey m k) ∧
    (∀ (m : BotMap) (k : String) (s : Settings) (trace : List ConnObs),
        containsKey (connect_account m k s trace).finalMap k =
          (connectRun s trace).result) := by
  constructor
  · intro m k s trace hres
    by_cases hc : containsKey m k = true
    · simp [connect_account, hres, hc]
    · have hcf : containsKey m k = false := bool_eq_false_of_ne_true hc
      simp [connect_account, hres, hcf, eraseKey_eq_self_of_not_contains m k hcf]
  · intro m k s trace
    have hm1k : k ∉ mapKeys (if containsKey m k then eraseKey m k else m) := by
      by_cases hc : containsKey m k = true
      · simpa [hc] using not_mem_mapKeys_eraseKey m k
      · have hcf : containsKey m k = false := bool_eq_false_of_ne_true hc
        simp only [hcf, Bool.false_eq_true, if_false]
        intro hk
        have hm := (containsKey_iff_mem m k).mpr hk
        rw [hcf] at hm
        exact Bool.false_ne_true hm
    by_cases hres : (connectRun s trace).result = true
    · rw [hres]
      simp only [connect_account, hres, if_true]
      apply (containsKey_iff_mem _ _).mpr
      simp [mapKeys]
    · have hresf := bool_eq_false_of_ne_true hres
      rw [hresf]
      simp only [connect_account, hresf, Bool.false_eq_true, if_false]
      cases hck : containsKey (if containsKey m k then eraseKey m k else m) k
      · rfl
      · exact absurd ((containsKey_iff_mem _ _).mp hck) hm1k

/-- Witness for C9 at a concrete failing connect against a map that already
holds the account. -/
theorem connect_account_failure_not_registered_witness :
    (connect_account [("a", MBot.mk true true true)] "a"
        ⟨false, false, false, false⟩ []).result = false ∧
    (connect_account [("a", MBot.mk true true true)] "a"
        ⟨false, false, false, false⟩ []).finalMap =
      eraseKey [("a", MBot.mk true true true)] "a" :=
  connect_account_failure_not_registered.1 [("a", ⟨true, true, true⟩)] "a"
    ⟨false, false, false, false⟩ [] (by decide)

/-- Helper: with unique keys, two entries sharing a key are the same entry. -/
theorem key_inj (m : BotMap) (hnd : (mapKeys m).Nodup) :
    ∀ p ∈ m, ∀ q ∈ m, p.1 = q.1 → p = q := by
  induction m with
  | nil => intro p hp; simp at hp
  | cons x rest ih =>
    have hnd1 : (x.1 :: mapKeys rest).Nodup := by
      simpa only [mapKeys, List.map_cons] using hnd
    obtain ⟨hx, hnd2⟩ := List.nodup_cons.mp hnd1
    intro p hp q hq hpq
    rcases List.mem_cons.mp hp with rfl | hp2
    · rcases List.mem_cons.mp hq with rfl | hq2
      · rfl
      · exfalso
        apply hx
        rw [hpq]
        exact List.mem_map.mpr ⟨q, hq2, rfl⟩
    · rcases List.mem_cons.mp hq with rfl | hq2
      · exfalso
        apply hx
        rw [← hpq]
        exact List.mem_map.mpr ⟨p, hp2, rfl⟩
      · exact ih hnd2 p hp2 q hq2 hpq

/-- C10: under dict key uniqueness, `is_account_connected` answers `True`
exactly for the accountIds that `get_connected_accounts` lists. -/
theorem is_connected_iff_listed (m : BotMap) (k : String)
    (hnd : (mapKeys m).Nodup) :
    is_account_connected m k = true ↔ k ∈ get_connected_accounts m := by
  constructor
  · intro h
    cases hq : m.find? (fun p => p.1 == k) with
    | none => simp [is_account_connected, containsKey, findBot, hq] at h
    | some q =>
      have hqm : q ∈ m := List.mem_of_find?_eq_some hq
      have hqk : q.1 = k := by simpa using List.find?_some hq
      have hqc : q.2.isConnected = true := by
        simpa [is_account_connected, containsKey, findBot, hq] using h
      exact List.mem_map.mpr ⟨q, List.mem_filter.mpr ⟨hqm, hqc⟩, hqk⟩
  · intro h
    rcases List.mem_map.mp h with ⟨p, hpf, hpk⟩
    obtain ⟨hpm, hpc⟩ := List.mem_filter.mp hpf
    have hsome : (m.find? (fun x => x.1 == k)).isSome :=
      List.find?_isSome.mpr ⟨p, hpm, by simp [hpk]⟩
    cases hq : m.find? (fun x => x.1 == k) with
    | none =>
      rw [hq] at hsome
      simp at hsome
    | some q =>
      have hqm : q ∈ m := List.mem_of_find?_eq_some hq
      have hqk : q.1 = k := by simpa using List.find?_some hq
      have hpq : p = q := key_inj m hnd p hpm q hqm (by rw [hpk, hqk])
      subst hpq
      simp [is_account_connected, containsKey, findBot, hq, hpc]

/-- Witness for C10 at a concrete two-account map. -/
theorem is_connected_iff_listed_witness :
    is_account_connected oneActiveMap "acct1" = true ↔
      "acct1" ∈ get_connected_accounts oneActiveMap :=
  is_connected_iff_listed oneActiveMap "acct1" (by decide)

end AfkConsole
